import Mathlib

/-!
Verification of the layout DOM wrapper (`src/components/main/layout/wrapper.rs`):
a read-restricted view over a document tree that splices synthesized
`before`/`after` pseudo nodes into sibling and child navigation, plus the
postorder traversal protocol built on top of it.

The embedding translates the wrapper's navigation and traversal functions over
an explicit document state.  Node linkage fields and the per-node layout
side-table are the wrapper's external collaborators (`script::dom::node::Node`
and `layout::util::PrivateLayoutData`); their record shape is modelled from the
spec's data model, while every function below follows the wrapper source.
Rust `fail!`/`unwrap` aborts are modelled as `Except.error`.
-/

set_option autoImplicit false

namespace Servo

/-- Computed display values distinguished by the wrapper (`display::inline`,
`display::block`, anything else). -/
inductive DisplayValue where
  | inline
  | block
  | otherDisplay
deriving DecidableEq, Repr

/-- The two pseudo-element kinds (`style::PseudoElement`). -/
inductive PseudoElement where
  | Before
  | After
deriving DecidableEq, Repr

/-- Element type ids the wrapper inspects for hyperlink semantics
(`get_link` matches anchor, area and link). -/
inductive ElementTypeId where
  | HTMLAnchorElementTypeId
  | HTMLAreaElementTypeId
  | HTMLLinkElementTypeId
  | OtherElementTypeId
deriving DecidableEq, Repr

/-- Modelled from the spec: an element's data (tag name, attribute table keyed
by optional namespace and name, and its element type id); the DOM `Element`
implementation is outside the wrapper source. -/
structure ElementData where
  tag_name : String
  attrs : List (Option String × String × String) := []
  type_id : ElementTypeId := ElementTypeId.OtherElementTypeId
deriving DecidableEq, Repr

/-- A document node's kind tag: document, element (with its data), text, or
other. -/
inductive NodeKind where
  | DocumentNode
  | ElementNode (e : ElementData)
  | TextNode
  | OtherNode
deriving DecidableEq, Repr

/-- Modelled from the spec: a document node's mutable linkage fields and kind
tag (`script::dom::node::Node` is outside the wrapper source; the spec's data
model lists exactly these fields). -/
structure NodeData where
  parent_node : Option Nat := none
  first_child : Option Nat := none
  last_child : Option Nat := none
  prev_sibling : Option Nat := none
  next_sibling : Option Nat := none
  kind : NodeKind
deriving DecidableEq, Repr

/-- A synthesized pseudo node reference as stored in the layout side-table
(`LayoutPseudoNode`: wrapped node plus its computed display). -/
structure LayoutPseudoNode where
  node : Nat
  display : DisplayValue
deriving DecidableEq, Repr

/-- Modelled from the spec: the per-node layout side-table entry.  The wrapper
reads `before_style`/`after_style` (presence of a generated pseudo element),
`before_node`/`after_node` (synthesized pseudo nodes once created) and
`before_parent_node`/`after_parent_node` (synthesized pseudo parent nodes
carrying a computed display), all optional. -/
structure LayoutData where
  before_style : Option DisplayValue := none
  after_style : Option DisplayValue := none
  before_node : Option LayoutPseudoNode := none
  after_node : Option LayoutPseudoNode := none
  before_parent_node : Option LayoutPseudoNode := none
  after_parent_node : Option LayoutPseudoNode := none
deriving DecidableEq, Repr

/-- A document state: nodes addressed by identity, plus the layout side-table
keyed by node identity. -/
structure Doc where
  nodes : Nat → Option NodeData
  layout : Nat → Option LayoutData

/-- Side-table access (`borrow_layout_data`). -/
def borrow_layout_data (d : Doc) (n : Nat) : Option LayoutData :=
  d.layout n

/-- Plain linkage: a node's raw `parent_node` field. -/
def node_parent (d : Doc) (n : Nat) : Option Nat :=
  (d.nodes n).bind (fun nd => nd.parent_node)

/-- Plain linkage: a node's raw `first_child` field. -/
def node_first_child (d : Doc) (n : Nat) : Option Nat :=
  (d.nodes n).bind (fun nd => nd.first_child)

/-- Plain linkage: a node's raw `next_sibling` field. -/
def node_next_sibling (d : Doc) (n : Nat) : Option Nat :=
  (d.nodes n).bind (fun nd => nd.next_sibling)

/-- Plain linkage: a node's raw `prev_sibling` field. -/
def node_prev_sibling (d : Doc) (n : Nat) : Option Nat :=
  (d.nodes n).bind (fun nd => nd.prev_sibling)

/-- Kind predicate `is_text`. -/
def is_text (d : Doc) (n : Nat) : Bool :=
  match d.nodes n with
  | some nd =>
    match nd.kind with
    | NodeKind.TextNode => true
    | _ => false
  | none => false

/-- Kind predicate `is_element`. -/
def is_element (d : Doc) (n : Nat) : Bool :=
  match d.nodes n with
  | some nd =>
    match nd.kind with
    | NodeKind.ElementNode _ => true
    | _ => false
  | none => false

/-- Kind predicate `is_document`. -/
def is_document (d : Doc) (n : Nat) : Bool :=
  match d.nodes n with
  | some nd =>
    match nd.kind with
    | NodeKind.DocumentNode => true
    | _ => false
  | none => false

/-- The element data of a node, when it is an element (`with_imm_element`
succeeds exactly on element nodes and aborts otherwise). -/
def elementOf (d : Doc) (n : Nat) : Option ElementData :=
  match d.nodes n with
  | some nd =>
    match nd.kind with
    | NodeKind.ElementNode e => some e
    | _ => none
  | none => none

/-- An element node's tag name, when it is an element. -/
def elementTag (d : Doc) (n : Nat) : Option String :=
  (elementOf d n).map (fun e => e.tag_name)

/-- The exposed `parent_node` query: maps the raw linkage field into a handle. -/
def parent_node (d : Doc) (n : Nat) : Option Nat :=
  node_parent d n

/-- Field selection used by the `get_pseudo_node!` macro: the
`before_parent_node`/`after_parent_node` entry for the requested kind. -/
def LayoutData.pseudo_parent_node (ld : LayoutData) : PseudoElement → Option LayoutPseudoNode
  | PseudoElement.Before => ld.before_parent_node
  | PseudoElement.After => ld.after_parent_node

/-- Field selection used by the `get_pseudo_node!` macro: the
`before_node`/`after_node` entry for the requested kind. -/
def LayoutData.pseudo_node (ld : LayoutData) : PseudoElement → Option LayoutPseudoNode
  | PseudoElement.Before => ld.before_node
  | PseudoElement.After => ld.after_node

/-- Field selection for the spec's view of the side-table: the
`before_style`/`after_style` entry for the requested kind. -/
def LayoutData.pseudo_style (ld : LayoutData) : PseudoElement → Option DisplayValue
  | PseudoElement.Before => ld.before_style
  | PseudoElement.After => ld.after_style

/-- The text branch of `get_pseudo_node`: a text node reads its own side-table
entry; eligible when the entry's pseudo parent node for the kind is present
with display `inline` and the entry's pseudo node for the kind is recorded, in
which case that pseudo node is surfaced. -/
def get_pseudo_node_text (d : Doc) (n : Nat) (pe : PseudoElement) : Option Nat :=
  (borrow_layout_data d n).bind (fun ldw =>
    (ldw.pseudo_parent_node pe).bind (fun ppn =>
      if ppn.display = DisplayValue.inline then
        (ldw.pseudo_node pe).map (fun pn => pn.node)
      else
        none))

/-- Pseudo-aware `first_child`: the raw first child, except that a text first
child eligible for a `Before` substitution is replaced by the pseudo node.
The callee is `get_pseudo_node` specialized to its text branch, since the
child is known to be a text node at the call site. -/
def first_child (d : Doc) (n : Nat) : Option Nat :=
  match node_first_child d n with
  | some c =>
    if is_text d c then
      match get_pseudo_node_text d c PseudoElement.Before with
      | some b => some b
      | none => some c
    else
      some c
  | none => none

/-- The resolver `get_pseudo_node`: decides whether a synthesized pseudo node of the given
kind is surfaced at this node.  A text node reads its own side-table entry
(display must be `inline`) and surfaces the recorded pseudo node; an element
reads the side-table entry of its pseudo-aware first child (display must be
`block`) and surfaces that entry's pseudo *parent* node; other kinds never
surface anything. -/
def get_pseudo_node (d : Doc) (n : Nat) (pe : PseudoElement) : Option Nat :=
  if is_text d n then
    get_pseudo_node_text d n pe
  else if is_element d n then
    match first_child d n with
    | some fc =>
      (borrow_layout_data d fc).bind (fun ldw =>
        (ldw.pseudo_parent_node pe).bind (fun ppn =>
          if ppn.display = DisplayValue.block then
            (ldw.pseudo_parent_node pe).map (fun ppn2 => ppn2.node)
          else
            none))
    | none => none
  else
    none

/-- The tail of `next_sibling` past its marker guard: first the `After` pseudo
node at this boundary; otherwise advance via raw linkage and replace the
reached sibling by its own `Before` pseudo node when one is surfaced. -/
def next_sibling_rest (d : Doc) (n : Nat) : Option Nat :=
  match get_pseudo_node d n PseudoElement.After with
  | some a => some a
  | none =>
    (node_next_sibling d n).map (fun s =>
      (get_pseudo_node d s PseudoElement.Before).getD s)

/-- The tail of `prev_sibling` past its marker guard: first the `After` pseudo
node at this boundary; otherwise retreat via raw linkage and replace the
reached sibling by its own `After` pseudo node when one is surfaced. -/
def prev_sibling_rest (d : Doc) (n : Nat) : Option Nat :=
  match get_pseudo_node d n PseudoElement.After with
  | some a => some a
  | none =>
    (node_prev_sibling d n).map (fun s =>
      (get_pseudo_node d s PseudoElement.After).getD s)

/-- Pseudo-aware `next_sibling`.  An element tagged `before`, or a text child
of a `before`-tagged element, traverses raw linkage directly; evaluating the
text guard unwraps the parent (aborting when absent) and reads it as an
element (aborting when it is not one).  Every other node goes through
`next_sibling_rest`. -/
def next_sibling (d : Doc) (n : Nat) : Except String (Option Nat) :=
  if is_element d n && (elementTag d n == some "before") then
    Except.ok (node_next_sibling d n)
  else if is_text d n then
    match parent_node d n with
    | none => Except.error "unwrap on a none value"
    | some p =>
      match elementOf d p with
      | none => Except.error "node is not an element"
      | some pel =>
        if pel.tag_name == "before" then
          Except.ok (node_next_sibling d n)
        else
          Except.ok (next_sibling_rest d n)
  else
    Except.ok (next_sibling_rest d n)

/-- Pseudo-aware `prev_sibling`.  An element tagged `after`, or a text child of
an `after`-tagged element, traverses raw linkage directly (with the same abort
behaviour in the text guard as `next_sibling`); every other node goes through
`prev_sibling_rest`. -/
def prev_sibling (d : Doc) (n : Nat) : Except String (Option Nat) :=
  if is_element d n && (elementTag d n == some "after") then
    Except.ok (node_prev_sibling d n)
  else if is_text d n then
    match parent_node d n with
    | none => Except.error "unwrap on a none value"
    | some p =>
      match elementOf d p with
      | none => Except.error "node is not an element"
      | some pel =>
        if pel.tag_name == "after" then
          Except.ok (node_prev_sibling d n)
        else
          Except.ok (prev_sibling_rest d n)
  else
    Except.ok (prev_sibling_rest d n)

/-- The diagnostic query `necessary_pseudo_elements`: the node's own side-table
entry is dereferenced first (`get_ref`, aborting when absent); a parentless
node then yields the empty list; otherwise the parent's entry is dereferenced
(again aborting when absent) and a kind is reported when the parent has the
style entry but this node has no synthesized node recorded yet, `Before`
first. -/
def necessary_pseudo_elements (d : Doc) (n : Nat) : Except String (List PseudoElement) :=
  match borrow_layout_data d n with
  | none => Except.error "get_ref on a none value"
  | some ldw =>
    match parent_node d n with
    | none => Except.ok []
    | some p =>
      match borrow_layout_data d p with
      | none => Except.error "get_ref on a none value"
      | some pldw =>
        Except.ok
          ((if pldw.before_style.isSome && ldw.before_node.isNone then
              [PseudoElement.Before] else []) ++
           (if pldw.after_style.isSome && ldw.after_node.isNone then
              [PseudoElement.After] else []))

/-- Modelled from the spec: attribute lookup (`get_attr` delegates to the DOM
element's `get_attr_val_for_layout`, which is outside the wrapper source);
per the spec it returns the attribute value when an entry with this namespace
and name is present, else absence. -/
def get_attr (e : ElementData) (ns : Option String) (name : String) : Option String :=
  (e.attrs.find? (fun a => a.1 == ns && a.2.1 == name)).map (fun a => a.2.2)

/-- Hyperlink lookup `get_link`: the `href` attribute, but only for anchor, area and link
element kinds; every other element yields absence. -/
def get_link (e : ElementData) : Option String :=
  match e.type_id with
  | ElementTypeId.HTMLAnchorElementTypeId => get_attr e none "href"
  | ElementTypeId.HTMLAreaElementTypeId => get_attr e none "href"
  | ElementTypeId.HTMLLinkElementTypeId => get_attr e none "href"
  | ElementTypeId.OtherElementTypeId => none

/-- The children iterator's state: the current handle, none when exhausted. -/
structure LayoutNodeChildrenIterator where
  current_node : Option Nat
deriving DecidableEq, Repr

/-- The `children` query: an iterator positioned at the pseudo-aware first child. -/
def children (d : Doc) (n : Nat) : LayoutNodeChildrenIterator :=
  { current_node := first_child d n }

/-- One `next()` step of the children iterator: return the current handle and
advance the state by pseudo-aware `next_sibling` (whose abort propagates). -/
def iter_next (d : Doc) (it : LayoutNodeChildrenIterator) :
    Except String (LayoutNodeChildrenIterator × Option Nat) :=
  match it.current_node with
  | none => Except.ok ({ current_node := none }, none)
  | some k =>
    (next_sibling d k).map (fun ns => ({ current_node := ns }, some k))

/-- Runs the children iterator to exhaustion, collecting the yielded handles;
`none` when the fuel runs out or a step aborts. -/
def iter_run (d : Doc) : Nat → LayoutNodeChildrenIterator → Option (List Nat)
  | 0, _ => none
  | fuel + 1, it =>
    match iter_next d it with
    | Except.error _ => none
    | Except.ok (_, none) => some []
    | Except.ok (it2, some k) => (iter_run d fuel it2).map (fun l => k :: l)

/-- The sequence obtained by repeatedly applying pseudo-aware `next_sibling`
from a starting handle, as the spec describes the children sequence; `none`
when the fuel runs out or a step aborts. -/
def sibling_chain (d : Doc) : Nat → Option Nat → Option (List Nat)
  | _, none => some []
  | 0, some _ => none
  | fuel + 1, some k =>
    match next_sibling d k with
    | Except.error _ => none
    | Except.ok nxt => (sibling_chain d fuel nxt).map (fun l => k :: l)

/-- Linkage setter `set_parent_node`: writes the node's `parent_node` field to
a present reference to the supplied node. -/
def set_parent_node (d : Doc) (self target : Nat) : Doc :=
  { d with nodes := fun m =>
      if m = self then
        (d.nodes m).map (fun nd => { nd with parent_node := some target })
      else
        d.nodes m }

/-- Linkage setter `set_first_child`. -/
def set_first_child (d : Doc) (self target : Nat) : Doc :=
  { d with nodes := fun m =>
      if m = self then
        (d.nodes m).map (fun nd => { nd with first_child := some target })
      else
        d.nodes m }

/-- Linkage setter `set_last_child`. -/
def set_last_child (d : Doc) (self target : Nat) : Doc :=
  { d with nodes := fun m =>
      if m = self then
        (d.nodes m).map (fun nd => { nd with last_child := some target })
      else
        d.nodes m }

/-- Linkage setter `set_prev_sibling`. -/
def set_prev_sibling (d : Doc) (self target : Nat) : Doc :=
  { d with nodes := fun m =>
      if m = self then
        (d.nodes m).map (fun nd => { nd with prev_sibling := some target })
      else
        d.nodes m }

/-- Linkage setter `set_next_sibling`. -/
def set_next_sibling (d : Doc) (self target : Nat) : Doc :=
  { d with nodes := fun m =>
      if m = self then
        (d.nodes m).map (fun nd => { nd with next_sibling := some target })
      else
        d.nodes m }

/-- The default `should_prune` of both traversal traits: never prunes. -/
def should_prune_default (_n : Nat) : Bool :=
  false

mutual

/-- The protocol `traverse_postorder`: prune short-circuits the whole subtree; otherwise
walk the kid chain from the pseudo-aware first child, recursing into each kid
and stopping on a false result; finally process this node.  Returns the
result together with the list of nodes `process` was invoked on, in
invocation order; `none` when the fuel runs out or a sibling step aborts. -/
def traverse_postorder (d : Doc) (pr proc : Nat → Bool) :
    Nat → Nat → Option (Bool × List Nat)
  | 0, _ => none
  | fuel + 1, n =>
    if pr n then
      some (true, [])
    else
      match traverse_kids d pr proc fuel (first_child d n) with
      | none => none
      | some (false, tr) => some (false, tr)
      | some (true, tr) => some (proc n, tr ++ [n])

/-- The kid loop of `traverse_postorder`: recurse into the current kid; on a
false result stop immediately; otherwise advance by pseudo-aware
`next_sibling` and continue. -/
def traverse_kids (d : Doc) (pr proc : Nat → Bool) :
    Nat → Option Nat → Option (Bool × List Nat)
  | _, none => some (true, [])
  | 0, some _ => none
  | fuel + 1, some k =>
    match traverse_postorder d pr proc fuel k with
    | none => none
    | some (false, tr) => some (false, tr)
    | some (true, tr) =>
      match next_sibling d k with
      | Except.error _ => none
      | Except.ok nxt =>
        match traverse_kids d pr proc fuel nxt with
        | none => none
        | some (b, tr2) => some (b, tr ++ tr2)

end

mutual

/-- The protocol `traverse_postorder_mut`: the mutating variant, threading the traversal
object's state through each `process` call; otherwise identical to
`traverse_postorder`. -/
def traverse_postorder_mut {σ : Type} (d : Doc) (pr : Nat → Bool)
    (proc : σ → Nat → σ × Bool) :
    Nat → Nat → σ → Option (σ × Bool × List Nat)
  | 0, _, _ => none
  | fuel + 1, n, s =>
    if pr n then
      some (s, true, [])
    else
      match traverse_kids_mut d pr proc fuel (first_child d n) s with
      | none => none
      | some (s2, false, tr) => some (s2, false, tr)
      | some (s2, true, tr) =>
        match proc s2 n with
        | (s3, b) => some (s3, b, tr ++ [n])

/-- The kid loop of `traverse_postorder_mut`. -/
def traverse_kids_mut {σ : Type} (d : Doc) (pr : Nat → Bool)
    (proc : σ → Nat → σ × Bool) :
    Nat → Option Nat → σ → Option (σ × Bool × List Nat)
  | _, none, s => some (s, true, [])
  | 0, some _, _ => none
  | fuel + 1, some k, s =>
    match traverse_postorder_mut d pr proc fuel k s with
    | none => none
    | some (s2, false, tr) => some (s2, false, tr)
    | some (s2, true, tr) =>
      match next_sibling d k with
      | Except.error _ => none
      | Except.ok nxt =>
        match traverse_kids_mut d pr proc fuel nxt s2 with
        | none => none
        | some (s3, b, tr2) => some (s3, b, tr ++ tr2)

end

mutual

/-- The pruned postorder order the spec prescribes: each node is listed after
the concatenation of its kids' lists (kids in children-iterator order), and a
pruned node contributes nothing; `none` when the fuel runs out or a sibling
step aborts. -/
def postorder_spec (d : Doc) (pr : Nat → Bool) : Nat → Nat → Option (List Nat)
  | 0, _ => none
  | fuel + 1, n =>
    if pr n then
      some []
    else
      (postorder_spec_kids d pr fuel (first_child d n)).map (fun l => l ++ [n])

/-- The kid chain of `postorder_spec`, concatenating each kid's pruned
postorder list in children-iterator order. -/
def postorder_spec_kids (d : Doc) (pr : Nat → Bool) : Nat → Option Nat → Option (List Nat)
  | _, none => some []
  | 0, some _ => none
  | fuel + 1, some k =>
    match postorder_spec d pr fuel k, next_sibling d k with
    | some tr, Except.ok nxt =>
      (postorder_spec_kids d pr fuel nxt).map (fun l => tr ++ l)
    | _, _ => none

end

/-- The spec's reading of substitution eligibility, transcribed from its own
words for comparison with `get_pseudo_node`: a text node reads the *parent's*
side-table (style entry for the kind, display `inline`, synthesized node
recorded there); an element reads the side-table of its *raw* first child
(style entry for the kind with display `block`) and returns the synthesized
node recorded there. -/
def get_pseudo_node_claimed (d : Doc) (n : Nat) (pe : PseudoElement) : Option Nat :=
  if is_text d n then
    (parent_node d n).bind (fun p =>
      (borrow_layout_data d p).bind (fun ld =>
        (ld.pseudo_style pe).bind (fun disp =>
          if disp = DisplayValue.inline then
            (ld.pseudo_node pe).map (fun pn => pn.node)
          else
            none)))
  else if is_element d n then
    (node_first_child d n).bind (fun fc =>
      (borrow_layout_data d fc).bind (fun ld =>
        (ld.pseudo_style pe).bind (fun disp =>
          if disp = DisplayValue.block then
            (ld.pseudo_node pe).map (fun pn => pn.node)
          else
            none)))
  else
    none

/-- The spec's reading of `prev_sibling`, transcribed from its own words for
comparison: a `before`/`after` marker element (or a text child of one) uses raw
linkage; otherwise the `Before` pseudo node is considered first when going
backward; otherwise retreat via raw linkage and replace the reached sibling by
its own `After` pseudo node when surfaced. -/
def prev_sibling_claimed (d : Doc) (n : Nat) : Option Nat :=
  if (is_element d n &&
        (elementTag d n == some "before" || elementTag d n == some "after")) ||
     (is_text d n &&
        ((parent_node d n).bind (fun p => elementTag d p) == some "before" ||
         (parent_node d n).bind (fun p => elementTag d p) == some "after")) then
    node_prev_sibling d n
  else
    match get_pseudo_node d n PseudoElement.Before with
    | some b => some b
    | none =>
      (node_prev_sibling d n).map (fun s =>
        (get_pseudo_node d s PseudoElement.After).getD s)

/-- The marker guard shared by the amended sibling rule: is this node the
direction-appropriate synthesized marker element, or a text child of one?  The
text case dereferences the parent (aborting when absent) and reads it as an
element (aborting when it is not one). -/
def marker_guard (d : Doc) (n : Nat) (marker : String) : Except String Bool :=
  if is_element d n then
    Except.ok (elementTag d n == some marker)
  else if is_text d n then
    match parent_node d n with
    | none => Except.error "unwrap on a none value"
    | some p =>
      match elementOf d p with
      | none => Except.error "node is not an element"
      | some pel => Except.ok (pel.tag_name == marker)
  else
    Except.ok false

/-- The amended forward rule: the `before` marker guard falls back to raw
linkage; otherwise the `After` pseudo node at this boundary comes first; else
advance via raw linkage and surface the reached sibling's own `Before` pseudo
node when eligible, else the sibling itself. -/
def next_sibling_amended (d : Doc) (n : Nat) : Except String (Option Nat) :=
  (marker_guard d n "before").bind (fun g =>
    if g then
      Except.ok (node_next_sibling d n)
    else
      match get_pseudo_node d n PseudoElement.After with
      | some a => Except.ok (some a)
      | none =>
        match node_next_sibling d n with
        | none => Except.ok none
        | some s =>
          match get_pseudo_node d s PseudoElement.Before with
          | some b => Except.ok (some b)
          | none => Except.ok (some s))

/-- The amended backward rule: the `after` marker guard falls back to raw
linkage; otherwise the `After` pseudo node at this boundary comes first (the
same kind as in the forward direction, not `Before`); else retreat via raw
linkage and surface the reached sibling's own `After` pseudo node when
eligible, else the sibling itself. -/
def prev_sibling_amended (d : Doc) (n : Nat) : Except String (Option Nat) :=
  (marker_guard d n "after").bind (fun g =>
    if g then
      Except.ok (node_prev_sibling d n)
    else
      match get_pseudo_node d n PseudoElement.After with
      | some a => Except.ok (some a)
      | none =>
        match node_prev_sibling d n with
        | none => Except.ok none
        | some s =>
          match get_pseudo_node d s PseudoElement.After with
          | some a => Except.ok (some a)
          | none => Except.ok (some s))

/-- The spec's reading of `first_child`, transcribed from its own words for
comparison: the raw first child, except that when it is a text node and the
queried node's own side-table entry (the text child's *parent*) holds a
`before_style` with display `inline` and a recorded `before_node`, that
`before_node` is returned instead. -/
def first_child_claimed (d : Doc) (n : Nat) : Option Nat :=
  match node_first_child d n with
  | some c =>
    if is_text d c then
      match borrow_layout_data d n with
      | some ld =>
        match ld.before_style, ld.before_node with
        | some disp, some bn =>
          if disp = DisplayValue.inline then some bn.node else some c
        | _, _ => some c
      | none => some c
    else
      some c
  | none => none

/-- The amended `first_child` rule: the raw first child, except that when it is
a text node whose *own* side-table entry holds a `before_parent_node` with
display `inline` and a recorded `before_node`, that `before_node` is returned
instead. -/
def first_child_amended (d : Doc) (n : Nat) : Option Nat :=
  (node_first_child d n).map (fun c =>
    if is_text d c then
      match borrow_layout_data d c with
      | some ld =>
        match ld.before_parent_node, ld.before_node with
        | some ppn, some bn =>
          if ppn.display = DisplayValue.inline then bn.node else c
        | _, _ => c
      | none => c
    else
      c)

/-- Example document A: element 0 (`div`) with text child 1; node 2 is a
synthesized `after` pseudo element.  The side-table records the `After` pseudo
data both on the text node itself (as the wrapper stores it) and on the parent
(as the spec describes it), so both readings agree that an `After` pseudo node
is eligible at node 1 and that no `Before` one is. -/
def exDocA : Doc :=
  { nodes := fun n =>
      if n = 0 then
        some { kind := NodeKind.ElementNode { tag_name := "div" },
               first_child := some 1, last_child := some 1 }
      else if n = 1 then
        some { kind := NodeKind.TextNode, parent_node := some 0 }
      else if n = 2 then
        some { kind := NodeKind.ElementNode { tag_name := "after" } }
      else
        none,
    layout := fun n =>
      if n = 0 then
        some { after_style := some DisplayValue.inline,
               after_node := some { node := 2, display := DisplayValue.inline } }
      else if n = 1 then
        some { after_parent_node := some { node := 2, display := DisplayValue.inline },
               after_node := some { node := 2, display := DisplayValue.inline } }
      else
        none }

/-- Example document B: element 0 (`div`) with text child 1.  The side-table
holds `Before` pseudo data (style, pseudo node 5, pseudo parent node 5, all
with display `inline`) on the parent's entry only; the text node has no entry
of its own. -/
def exDocB : Doc :=
  { nodes := fun n =>
      if n = 0 then
        some { kind := NodeKind.ElementNode { tag_name := "div" },
               first_child := some 1, last_child := some 1 }
      else if n = 1 then
        some { kind := NodeKind.TextNode, parent_node := some 0 }
      else
        none,
    layout := fun n =>
      if n = 0 then
        some { before_style := some DisplayValue.inline,
               before_node := some { node := 5, display := DisplayValue.inline },
               before_parent_node := some { node := 5, display := DisplayValue.inline } }
      else
        none }

/-- Example document C: the same shape as document B, kept separate for the
`first_child` analysis. -/
def exDocC : Doc :=
  { nodes := fun n =>
      if n = 0 then
        some { kind := NodeKind.ElementNode { tag_name := "div" },
               first_child := some 1, last_child := some 1 }
      else if n = 1 then
        some { kind := NodeKind.TextNode, parent_node := some 0 }
      else
        none,
    layout := fun n =>
      if n = 0 then
        some { before_style := some DisplayValue.inline,
               before_node := some { node := 5, display := DisplayValue.inline },
               before_parent_node := some { node := 5, display := DisplayValue.inline } }
      else
        none }

/-- Example document D: root 0 (`html`) with element children 1 (`div`) and
2 (`span`); node 3 is a synthesized `before` pseudo element.  The root's
side-table entry holds `before_style` with display `block` and records pseudo
node 3 (in every field a reading could consult); the root's real first child
is the element 1. -/
def exDocD : Doc :=
  { nodes := fun n =>
      if n = 0 then
        some { kind := NodeKind.ElementNode { tag_name := "html" },
               first_child := some 1, last_child := some 2 }
      else if n = 1 then
        some { kind := NodeKind.ElementNode { tag_name := "div" },
               parent_node := some 0, next_sibling := some 2 }
      else if n = 2 then
        some { kind := NodeKind.ElementNode { tag_name := "span" },
               parent_node := some 0, prev_sibling := some 1 }
      else if n = 3 then
        some { kind := NodeKind.ElementNode { tag_name := "before" } }
      else
        none,
    layout := fun n =>
      if n = 0 then
        some { before_style := some DisplayValue.block,
               before_node := some { node := 3, display := DisplayValue.block },
               before_parent_node := some { node := 3, display := DisplayValue.block } }
      else
        none }

/-- Example document E: a single parentless element with no side-table entry. -/
def exDocE : Doc :=
  { nodes := fun n =>
      if n = 0 then
        some { kind := NodeKind.ElementNode { tag_name := "div" } }
      else
        none,
    layout := fun _ => none }

/-- Example document F: a small tree for exercising the traversal protocol —
root 0 (`html`) with element children 1 (`div`, containing text 3) and
2 (`span`); no pseudo styles anywhere. -/
def exDocF : Doc :=
  { nodes := fun n =>
      if n = 0 then
        some { kind := NodeKind.ElementNode { tag_name := "html" },
               first_child := some 1, last_child := some 2 }
      else if n = 1 then
        some { kind := NodeKind.ElementNode { tag_name := "div" },
               parent_node := some 0, first_child := some 3, last_child := some 3,
               next_sibling := some 2 }
      else if n = 2 then
        some { kind := NodeKind.ElementNode { tag_name := "span" },
               parent_node := some 0, prev_sibling := some 1 }
      else if n = 3 then
        some { kind := NodeKind.TextNode, parent_node := some 1 }
      else
        none,
    layout := fun _ => none }

/-- A node whose kind is element is not a text node. -/
theorem element_not_text (d : Doc) (n : Nat) (h : is_element d n = true) :
    is_text d n = false := by
  unfold is_element at h
  unfold is_text
  cases hnd : d.nodes n with
  | none => simp [hnd] at h
  | some nd =>
    cases hk : nd.kind <;> simp [hnd, hk] at h ⊢

/-- The tail of `next_sibling` written as an explicit decision tree. -/
theorem next_rest_match (d : Doc) (n : Nat) :
    Except.ok (next_sibling_rest d n) =
      (match get_pseudo_node d n PseudoElement.After with
       | some a => (Except.ok (some a) : Except String (Option Nat))
       | none =>
         match node_next_sibling d n with
         | none => Except.ok none
         | some s =>
           match get_pseudo_node d s PseudoElement.Before with
           | some b => Except.ok (some b)
           | none => Except.ok (some s)) := by
  unfold next_sibling_rest
  cases ha : get_pseudo_node d n PseudoElement.After with
  | some a => simp [ha]
  | none =>
    cases hs : node_next_sibling d n with
    | none => simp [ha, hs]
    | some s =>
      cases hb : get_pseudo_node d s PseudoElement.Before with
      | some b => simp [ha, hs, hb, Option.getD]
      | none => simp [ha, hs, hb, Option.getD]

/-- The tail of `prev_sibling` written as an explicit decision tree. -/
theorem prev_rest_match (d : Doc) (n : Nat) :
    Except.ok (prev_sibling_rest d n) =
      (match get_pseudo_node d n PseudoElement.After with
       | some a => (Except.ok (some a) : Except String (Option Nat))
       | none =>
         match node_prev_sibling d n with
         | none => Except.ok none
         | some s =>
           match get_pseudo_node d s PseudoElement.After with
           | some a => Except.ok (some a)
           | none => Except.ok (some s)) := by
  unfold prev_sibling_rest
  cases ha : get_pseudo_node d n PseudoElement.After with
  | some a => simp [ha]
  | none =>
    cases hs : node_prev_sibling d n with
    | none => simp [ha, hs]
    | some s =>
      cases hb : get_pseudo_node d s PseudoElement.After with
      | some a => simp [ha, hs, hb, Option.getD]
      | none => simp [ha, hs, hb, Option.getD]

/-- Claim C1 as stated is false on the wrapper: going backward, the wrapper
consults the `After` pseudo node first, not the `Before` one.  At text node 1
of document A (whose parent is a plain `div`, so no marker guard applies), the
wrapper's `prev_sibling` surfaces the `After` pseudo node 2 even though the
node has no raw previous sibling, while the resolution rule as the claim
states it (`Before` pseudo node first when going backward) yields no node. -/
theorem prev_sibling_claim_counterexample :
    prev_sibling exDocA 1 = Except.ok (some 2) ∧
    prev_sibling_claimed exDocA 1 = none ∧
    node_prev_sibling exDocA 1 = none ∧
    prev_sibling_claimed exDocA 1 ≠ some 2 := by
  refine ⟨rfl, rfl, rfl, ?_⟩
  decide

/-- Claim C1, amended: `next_sibling` and `prev_sibling` follow the step-2
resolution rule with two corrections — the marker guard is
direction-specific (`before` for the forward direction, `after` for the
backward one, with the text-child guard aborting when the parent is absent or
not an element), and in both directions the boundary check consults the
`After` pseudo node first; only the reached real sibling's replacement is
direction-dependent (`Before` forward, `After` backward). -/
theorem next_prev_sibling_resolution (d : Doc) (n : Nat) :
    next_sibling d n = next_sibling_amended d n ∧
    prev_sibling d n = prev_sibling_amended d n := by
  constructor
  · unfold next_sibling next_sibling_amended marker_guard
    cases he : is_element d n with
    | true =>
      have ht : is_text d n = false := element_not_text d n he
      cases hg : elementTag d n == some "before" with
      | true => simp [he, ht, hg, Except.bind]
      | false => simp [he, ht, hg, Except.bind, ← next_rest_match]
    | false =>
      cases htx : is_text d n with
      | true =>
        cases hp : parent_node d n with
        | none => simp [he, htx, hp, Except.bind]
        | some p =>
          cases hel : elementOf d p with
          | none => simp [he, htx, hp, hel, Except.bind]
          | some pel =>
            cases hb : pel.tag_name == "before" with
            | true => simp [he, htx, hp, hel, hb, Except.bind]
            | false => simp [he, htx, hp, hel, hb, Except.bind, ← next_rest_match]
      | false => simp [he, htx, Except.bind, ← next_rest_match]
  · unfold prev_sibling prev_sibling_amended marker_guard
    cases he : is_element d n with
    | true =>
      have ht : is_text d n = false := element_not_text d n he
      cases hg : elementTag d n == some "after" with
      | true => simp [he, ht, hg, Except.bind]
      | false => simp [he, ht, hg, Except.bind, ← prev_rest_match]
    | false =>
      cases htx : is_text d n with
      | true =>
        cases hp : parent_node d n with
        | none => simp [he, htx, hp, Except.bind]
        | some p =>
          cases hel : elementOf d p with
          | none => simp [he, htx, hp, hel, Except.bind]
          | some pel =>
            cases hb : pel.tag_name == "after" with
            | true => simp [he, htx, hp, hel, hb, Except.bind]
            | false => simp [he, htx, hp, hel, hb, Except.bind, ← prev_rest_match]
      | false => simp [he, htx, Except.bind, ← prev_rest_match]

/-- Claim C2 as stated is false on the wrapper: for a text node the wrapper
reads the text node's *own* side-table entry, not the parent's, and for an
element it returns the pseudo *parent* node recorded on its (pseudo-aware)
first child's entry, not the synthesized node entry.  In document B the
parent's entry satisfies every condition the claim requires (style for
`Before` present, display `inline`, synthesized node 5 recorded), so the claim
predicts that text node 1 yields node 5; the wrapper yields nothing because
node 1 has no entry of its own. -/
theorem get_pseudo_node_claim_counterexample :
    get_pseudo_node_claimed exDocB 1 PseudoElement.Before = some 5 ∧
    borrow_layout_data exDocB 1 = none ∧
    get_pseudo_node exDocB 1 PseudoElement.Before = none ∧
    get_pseudo_node exDocB 1 PseudoElement.Before ≠
      get_pseudo_node_claimed exDocB 1 PseudoElement.Before := by
  refine ⟨rfl, rfl, rfl, ?_⟩
  decide

/-- Claim C2, amended: `get_pseudo_node(node, kind)` yields a node exactly
when either the node is text and its *own* side-table entry holds a pseudo
parent node for the kind with display `inline` together with a recorded
pseudo node for the kind (that pseudo node is returned), or the node is an
element whose pseudo-aware first child's side-table entry holds a pseudo
parent node for the kind with display `block` (that pseudo *parent* node is
returned); in every other case it yields nothing. -/
theorem get_pseudo_node_characterization (d : Doc) (n m : Nat) (pe : PseudoElement) :
    get_pseudo_node d n pe = some m ↔
      (is_text d n = true ∧ ∃ ld ppn pn,
        borrow_layout_data d n = some ld ∧ ld.pseudo_parent_node pe = some ppn ∧
        ppn.display = DisplayValue.inline ∧ ld.pseudo_node pe = some pn ∧
        m = pn.node) ∨
      (is_text d n = false ∧ is_element d n = true ∧ ∃ fc ld ppn,
        first_child d n = some fc ∧ borrow_layout_data d fc = some ld ∧
        ld.pseudo_parent_node pe = some ppn ∧ ppn.display = DisplayValue.block ∧
        m = ppn.node) := by
  unfold get_pseudo_node get_pseudo_node_text
  cases ht : is_text d n with
  | true =>
    simp only [ht, if_true, Bool.true_eq_false, false_and, or_false, true_and]
    constructor
    · intro h
      rcases Option.bind_eq_some.1 h with ⟨ld, hld, h2⟩
      rcases Option.bind_eq_some.1 h2 with ⟨ppn, hppn, h3⟩
      by_cases hd : ppn.display = DisplayValue.inline
      · rw [if_pos hd] at h3
        rcases Option.map_eq_some'.1 h3 with ⟨pn, hpn, hm⟩
        exact ⟨ld, ppn, pn, hld, hppn, hd, hpn, hm.symm⟩
      · rw [if_neg hd] at h3
        exact absurd h3 (by simp)
    · rintro ⟨ld, ppn, pn, hld, hppn, hd, hpn, hm⟩
      rw [hld, Option.some_bind, hppn, Option.some_bind, if_pos hd, hpn]
      simp [hm]
  | false =>
    cases he : is_element d n with
    | true =>
      simp only [ht, he, Bool.false_eq_true, if_false, if_true, false_and, false_or,
        Bool.false_eq_true, true_and]
      cases hfc : first_child d n with
      | none =>
        simp [hfc]
      | some fc =>
        simp only [hfc]
        constructor
        · intro h
          rcases Option.bind_eq_some.1 h with ⟨ld, hld, h2⟩
          rcases Option.bind_eq_some.1 h2 with ⟨ppn, hppn, h3⟩
          by_cases hd : ppn.display = DisplayValue.block
          · rw [if_pos hd, hppn] at h3
            simp only [Option.map_some'] at h3
            exact ⟨fc, ld, ppn, rfl, hld, hppn, hd, (Option.some.inj h3).symm⟩
          · rw [if_neg hd] at h3
            exact absurd h3 (by simp)
        · rintro ⟨fc2, ld, ppn, hfc2, hld, hppn, hd, hm⟩
          have hfe : fc = fc2 := Option.some.inj hfc2
          subst hfe
          rw [hld, Option.some_bind, hppn, Option.some_bind, if_pos hd]
          simp [hm]
    | false =>
      simp [ht, he]

/-- Claim C3 as stated is false on the wrapper: the `Before` substitution in
`first_child` is keyed on the text child's own side-table entry, not on the
parent's.  In document C the parent 0 has a `before_style` entry with display
`inline` and a recorded `before_node` 5, and its real first child 1 is a text
node, so the claim predicts `first_child 0 = some 5`; the wrapper returns the
text child 1 because the child's own entry is absent. -/
theorem first_child_claim_counterexample :
    first_child_claimed exDocC 0 = some 5 ∧
    node_first_child exDocC 0 = some 1 ∧
    is_text exDocC 1 = true ∧
    borrow_layout_data exDocC 1 = none ∧
    first_child exDocC 0 = some 1 ∧
    first_child exDocC 0 ≠ first_child_claimed exDocC 0 := by
  refine ⟨rfl, rfl, rfl, rfl, rfl, ?_⟩
  decide

/-- Claim C3, amended: `first_child(p)` computes the real first child via raw
linkage; when that child is a text node whose *own* side-table entry holds a
`before_parent_node` with display `inline` and a recorded `before_node`, the
`before_node` is returned instead; otherwise the real first child (or no
value when `p` has no children). -/
theorem first_child_characterization (d : Doc) (n : Nat) :
    first_child d n = first_child_amended d n := by
  unfold first_child first_child_amended get_pseudo_node_text
  cases hfc : node_first_child d n with
  | none => rfl
  | some c =>
    simp only [Option.map_some']
    cases ht : is_text d c with
    | false => simp [ht]
    | true =>
      simp only [ht, if_true]
      cases hld : borrow_layout_data d c with
      | none => simp
      | some ld =>
        simp only [Option.some_bind]
        cases hpp : ld.before_parent_node with
        | none => simp [LayoutData.pseudo_parent_node, hpp]
        | some ppn =>
          simp only [LayoutData.pseudo_parent_node, hpp, Option.some_bind]
          by_cases hd : ppn.display = DisplayValue.inline
          · cases hbn : ld.before_node with
            | none => simp [LayoutData.pseudo_node, hbn, hd]
            | some bn => simp [LayoutData.pseudo_node, hbn, hd]
          · cases hbn : ld.before_node with
            | none => simp [LayoutData.pseudo_node, hbn, hd]
            | some bn => simp [LayoutData.pseudo_node, hbn, hd]

/-- Claim C4 as stated is false on the wrapper: the `Before` substitution in
`first_child` only ever fires when the real first child is a *text* node.  In
document D the root's side-table entry has a `before` style with display
`block` and records pseudo node 3, and the real first child is the element 1,
exactly the claimed configuration; yet `first_child` returns the element 1,
not the pseudo node 3, and the children iterator yields `[1, 2]`, not
`[3, 1, 2]`. -/
theorem first_child_block_scenario_counterexample :
    borrow_layout_data exDocD 0 =
      some { before_style := some DisplayValue.block,
             before_node := some { node := 3, display := DisplayValue.block },
             before_parent_node := some { node := 3, display := DisplayValue.block } } ∧
    node_first_child exDocD 0 = some 1 ∧
    is_element exDocD 1 = true ∧
    first_child exDocD 0 = some 1 ∧
    first_child exDocD 0 ≠ some 3 ∧
    iter_run exDocD 10 (children exDocD 0) = some [1, 2] ∧
    iter_run exDocD 10 (children exDocD 0) ≠ some [3, 1, 2] := by
  refine ⟨rfl, rfl, rfl, rfl, ?_, rfl, ?_⟩ <;> decide

/-- Claim C4, amended: in the claimed configuration (root side-table entry
with `before` style present, display `block`, recorded pseudo node 3, real
first child the element 1) no substitution occurs: `first_child` returns the
real first child 1, and the children iterator yields the real children
`[1, 2]` in order. -/
theorem first_child_block_scenario :
    first_child exDocD 0 = some 1 ∧
    iter_run exDocD 10 (children exDocD 0) = some [1, 2] ∧
    sibling_chain exDocD 9 (first_child exDocD 0) = some [1, 2] := by
  exact ⟨rfl, rfl, rfl⟩

/-- Claim C6: when `should_prune` answers true on a node, the postorder
traversal of that node's subtree returns true immediately and `process` is
invoked neither on the node nor on any descendant (the invocation trace is
empty); and the default `should_prune` of the traversal trait never prunes
any node. -/
theorem traverse_postorder_prune (d : Doc) (pr proc : Nat → Bool) (fuel n : Nat)
    (hpr : pr n = true) (hfuel : 0 < fuel) :
    traverse_postorder d pr proc fuel n = some (true, []) ∧
    ∀ m : Nat, should_prune_default m = false := by
  refine ⟨?_, fun _ => rfl⟩
  cases fuel with
  | zero => exact absurd hfuel (by simp)
  | succ k => simp [traverse_postorder, hpr]

/-- Claim C6 witness: pruning the root of document F returns true with an
empty trace even though the process function rejects everything. -/
theorem traverse_postorder_prune_witness :
    traverse_postorder exDocF (fun m => m == 0) (fun _ => false) 5 0 = some (true, []) ∧
    ∀ m : Nat, should_prune_default m = false :=
  traverse_postorder_prune exDocF (fun m => m == 0) (fun _ => false) 5 0 (by decide)
    (by decide)

/-- One iterator step agrees with one step of the sibling chain. -/
theorem iter_run_eq_sibling_chain (d : Doc) :
    ∀ (fuel : Nat) (c : Option Nat),
      iter_run d (fuel + 1) { current_node := c } = sibling_chain d fuel c := by
  intro fuel
  induction fuel with
  | zero =>
    intro c
    cases c with
    | none => rfl
    | some k =>
      simp only [iter_run, iter_next, sibling_chain]
      cases hns : next_sibling d k with
      | error e => simp [Except.map, hns]
      | ok nxt => simp [Except.map, hns, iter_run]
  | succ fuel ih =>
    intro c
    cases c with
    | none => rfl
    | some k =>
      have h1 : iter_run d (fuel + 1 + 1) { current_node := some k } =
          (match (next_sibling d k).map
              (fun ns => (({ current_node := ns } : LayoutNodeChildrenIterator), some k)) with
           | Except.error _ => none
           | Except.ok (_, none) => some []
           | Except.ok (it2, some k2) =>
             (iter_run d (fuel + 1) it2).map (fun l => k2 :: l)) := rfl
      rw [h1]
      cases hns : next_sibling d k with
      | error e => simp [hns, Except.map, sibling_chain]
      | ok nxt => simp [hns, Except.map, sibling_chain, ih nxt]

/-- Claim C8: the children iterator yields exactly the sequence obtained by
starting at pseudo-aware `first_child` and repeatedly applying pseudo-aware
`next_sibling`, each element once in that order; and whenever that sibling
chain is exhausted within some bound (as it is on any finite tree), the
iterator terminates with that finite sequence. -/
theorem children_iterator_equiv (d : Doc) (n fuel : Nat) :
    iter_run d (fuel + 1) (children d n) = sibling_chain d fuel (first_child d n) ∧
    ∀ l, sibling_chain d fuel (first_child d n) = some l →
      iter_run d (fuel + 1) (children d n) = some l := by
  have h := iter_run_eq_sibling_chain d fuel (first_child d n)
  exact ⟨h, fun l hl => h.trans hl⟩

/-- Claim C8 witness: on the root of document F the iterator and the sibling
chain both produce the child sequence `[1, 2]`. -/
theorem children_iterator_equiv_witness :
    iter_run exDocF 6 (children exDocF 0) = sibling_chain exDocF 5 (first_child exDocF 0) ∧
    iter_run exDocF 6 (children exDocF 0) = some [1, 2] :=
  ⟨(children_iterator_equiv exDocF 0 5).1,
   (children_iterator_equiv exDocF 0 5).2 [1, 2] rfl⟩

/-- A setter writes exactly the designated update on the target node: the
side-table is untouched, every other node is untouched, and the target node's
record is the old record with just the designated field overwritten. -/
def setter_frame (f : Doc → Nat → Nat → Doc) (g : NodeData → Option Nat → NodeData) : Prop :=
  ∀ (d : Doc) (s t : Nat),
    (f d s t).layout = d.layout ∧
    (∀ m, m ≠ s → (f d s t).nodes m = d.nodes m) ∧
    (f d s t).nodes s = (d.nodes s).map (fun nd => g nd (some t))

/-- After a setter runs, every node record still present has its kind
unchanged and each linkage field either unchanged or set to a present
reference to the supplied node — in particular no linkage field is ever reset
to absent. -/
def setter_keeps_present (f : Doc → Nat → Nat → Doc) : Prop :=
  ∀ (d : Doc) (s t m : Nat) (nd2 : NodeData),
    (f d s t).nodes m = some nd2 →
    ∃ nd1, d.nodes m = some nd1 ∧ nd2.kind = nd1.kind ∧
      (nd2.parent_node = nd1.parent_node ∨ nd2.parent_node = some t) ∧
      (nd2.first_child = nd1.first_child ∨ nd2.first_child = some t) ∧
      (nd2.last_child = nd1.last_child ∨ nd2.last_child = some t) ∧
      (nd2.prev_sibling = nd1.prev_sibling ∨ nd2.prev_sibling = some t) ∧
      (nd2.next_sibling = nd1.next_sibling ∨ nd2.next_sibling = some t)

/-- Claim C10: each of the five linkage setters writes exactly its one linkage
field of the addressed node, always to a present reference to the supplied
node, leaving the node's other linkage fields, kind and the side-table
unchanged; and no setter can reset a linkage field back to absent. -/
theorem linkage_setters_frame :
    setter_frame set_parent_node (fun nd v => { nd with parent_node := v }) ∧
    setter_frame set_first_child (fun nd v => { nd with first_child := v }) ∧
    setter_frame set_last_child (fun nd v => { nd with last_child := v }) ∧
    setter_frame set_prev_sibling (fun nd v => { nd with prev_sibling := v }) ∧
    setter_frame set_next_sibling (fun nd v => { nd with next_sibling := v }) ∧
    setter_keeps_present set_parent_node ∧
    setter_keeps_present set_first_child ∧
    setter_keeps_present set_last_child ∧
    setter_keeps_present set_prev_sibling ∧
    setter_keeps_present set_next_sibling := by
  refine ⟨fun d s t => ⟨rfl, fun m hm => by simp [set_parent_node, hm], by simp [set_parent_node]⟩,
    fun d s t => ⟨rfl, fun m hm => by simp [set_first_child, hm], by simp [set_first_child]⟩,
    fun d s t => ⟨rfl, fun m hm => by simp [set_last_child, hm], by simp [set_last_child]⟩,
    fun d s t => ⟨rfl, fun m hm => by simp [set_prev_sibling, hm], by simp [set_prev_sibling]⟩,
    fun d s t => ⟨rfl, fun m hm => by simp [set_next_sibling, hm], by simp [set_next_sibling]⟩,
    ?_, ?_, ?_, ?_, ?_⟩ <;>
  · intro d s t m nd2 h
    by_cases hm : m = s
    · subst hm
      simp only [set_parent_node, set_first_child, set_last_child, set_prev_sibling,
        set_next_sibling, if_pos rfl] at h
      rcases Option.map_eq_some'.1 h with ⟨nd1, hnd1, hup⟩
      exact ⟨nd1, hnd1, by subst hup; simp⟩
    · simp only [set_parent_node, set_first_child, set_last_child, set_prev_sibling,
        set_next_sibling, if_neg hm] at h
      exact ⟨nd2, h, rfl, Or.inl rfl, Or.inl rfl, Or.inl rfl, Or.inl rfl, Or.inl rfl⟩

/-- Short-circuit structure of a completed traversal, proved simultaneously
for the node function and its kid loop: a false overall result means the last
`process` invocation returned false and every earlier one returned true; a
true result means every invocation returned true. -/
theorem traverse_short_circuit_aux (d : Doc) (pr proc : Nat → Bool) :
    ∀ fuel : Nat,
      (∀ n res tr, traverse_postorder d pr proc fuel n = some (res, tr) →
        (res = false → ∃ pre m, tr = pre ++ [m] ∧ proc m = false ∧
          ∀ x ∈ pre, proc x = true) ∧
        (res = true → ∀ x ∈ tr, proc x = true)) ∧
      (∀ oc res tr, traverse_kids d pr proc fuel oc = some (res, tr) →
        (res = false → ∃ pre m, tr = pre ++ [m] ∧ proc m = false ∧
          ∀ x ∈ pre, proc x = true) ∧
        (res = true → ∀ x ∈ tr, proc x = true)) := by
  intro fuel
  induction fuel with
  | zero =>
    constructor
    · intro n res tr h
      simp [traverse_postorder] at h
    · intro oc res tr h
      cases oc with
      | none =>
        simp only [traverse_kids, Option.some.injEq, Prod.mk.injEq] at h
        obtain ⟨hres, htr⟩ := h
        subst hres
        subst htr
        exact ⟨fun hf => by simp at hf, fun _ x hx => by simp at hx⟩
      | some k =>
        simp [traverse_kids] at h
  | succ fuel ih =>
    obtain ⟨ihT, ihK⟩ := ih
    constructor
    · intro n res tr h
      simp only [traverse_postorder] at h
      split at h
      · simp only [Option.some.injEq, Prod.mk.injEq] at h
        obtain ⟨hres, htr⟩ := h
        subst hres
        subst htr
        exact ⟨fun hf => by simp at hf, fun _ x hx => by simp at hx⟩
      · split at h
        · exact absurd h (by simp)
        · rename_i heqk
          simp only [Option.some.injEq, Prod.mk.injEq] at h
          obtain ⟨hres, htr⟩ := h
          subst hres
          subst htr
          exact (ihK _ _ _ heqk)
        · rename_i tr1 heqk
          simp only [Option.some.injEq, Prod.mk.injEq] at h
          obtain ⟨hres, htr⟩ := h
          subst hres
          subst htr
          have hall := (ihK _ _ _ heqk).2 rfl
          constructor
          · intro hf
            exact ⟨tr1, n, rfl, hf, hall⟩
          · intro htrue x hx
            rcases List.mem_append.1 hx with hx1 | hx2
            · exact hall x hx1
            · rcases List.mem_singleton.1 hx2 with rfl
              exact htrue
    · intro oc res tr h
      cases oc with
      | none =>
        simp only [traverse_kids, Option.some.injEq, Prod.mk.injEq] at h
        obtain ⟨hres, htr⟩ := h
        subst hres
        subst htr
        exact ⟨fun hf => by simp at hf, fun _ x hx => by simp at hx⟩
      | some k =>
        simp only [traverse_kids] at h
        split at h
        · exact absurd h (by simp)
        · rename_i heqt
          simp only [Option.some.injEq, Prod.mk.injEq] at h
          obtain ⟨hres, htr⟩ := h
          subst hres
          subst htr
          exact (ihT _ _ _ heqt)
        · rename_i tr1 heqt
          split at h
          · exact absurd h (by simp)
          · split at h
            · exact absurd h (by simp)
            · rename_i b2 tr2 heqk
              simp only [Option.some.injEq, Prod.mk.injEq] at h
              obtain ⟨hres, htr⟩ := h
              subst hres
              subst htr
              have hall1 := (ihT _ _ _ heqt).2 rfl
              have hk := ihK _ _ _ heqk
              constructor
              · intro hf
                rcases hk.1 hf with ⟨pre, m, hdec, hm, hpre⟩
                refine ⟨tr1 ++ pre, m, by rw [hdec, List.append_assoc], hm, ?_⟩
                intro x hx
                rcases List.mem_append.1 hx with hx1 | hx2
                · exact hall1 x hx1
                · exact hpre x hx2
              · intro htrue x hx
                rcases List.mem_append.1 hx with hx1 | hx2
                · exact hall1 x hx1
                · exact hk.2 htrue x hx2

/-- Claim C7: during a completed postorder traversal, once some `process` call
returns false it is the last `process` invocation of the whole walk — no
subsequent sibling or ancestor is processed — and the false result propagates
up through every enclosing recursive call to become the overall result. -/
theorem traverse_postorder_short_circuit (d : Doc) (pr proc : Nat → Bool)
    (fuel n : Nat) (res : Bool) (tr : List Nat)
    (h : traverse_postorder d pr proc fuel n = some (res, tr)) :
    (res = false → ∃ pre m, tr = pre ++ [m] ∧ proc m = false ∧
      ∀ x ∈ pre, proc x = true) ∧
    (res = true → ∀ x ∈ tr, proc x = true) :=
  (traverse_short_circuit_aux d pr proc fuel).1 n res tr h

/-- Claim C7 witness: on document F with a process function that rejects the
text node 3, the traversal stops after processing node 3 and returns false;
the theorem applied to this run decomposes its trace accordingly. -/
theorem traverse_postorder_short_circuit_witness :
    traverse_postorder exDocF (fun _ => false) (fun x => x != 3) 10 0 =
      some (false, [3]) ∧
    ((false = false → ∃ pre m, ([3] : List Nat) = pre ++ [m] ∧
        (fun x : Nat => x != 3) m = false ∧ ∀ x ∈ pre, (fun x : Nat => x != 3) x = true) ∧
     (false = true → ∀ x ∈ ([3] : List Nat), (fun x : Nat => x != 3) x = true)) :=
  ⟨rfl, traverse_postorder_short_circuit exDocF (fun _ => false) (fun x => x != 3)
    10 0 false [3] rfl⟩

/-- Whenever the pruned postorder list of a subtree is defined, the traversal
of that subtree completes, its invocation trace follows that list from the
start, and a fully successful traversal produces exactly that list;
simultaneously for the node function and its kid loop. -/
theorem traverse_adequacy (d : Doc) (pr proc : Nat → Bool) :
    ∀ fuel : Nat,
      (∀ n P, postorder_spec d pr fuel n = some P →
        ∃ b tr, traverse_postorder d pr proc fuel n = some (b, tr) ∧
          (∃ rest, tr ++ rest = P) ∧ (b = true → tr = P)) ∧
      (∀ oc P, postorder_spec_kids d pr fuel oc = some P →
        ∃ b tr, traverse_kids d pr proc fuel oc = some (b, tr) ∧
          (∃ rest, tr ++ rest = P) ∧ (b = true → tr = P)) := by
  intro fuel
  induction fuel with
  | zero =>
    constructor
    · intro n P h
      simp [postorder_spec] at h
    · intro oc P h
      cases oc with
      | none =>
        simp only [postorder_spec_kids, Option.some.injEq] at h
        subst h
        exact ⟨true, [], rfl, ⟨[], rfl⟩, fun _ => rfl⟩
      | some k =>
        simp [postorder_spec_kids] at h
  | succ fuel ih =>
    obtain ⟨ihT, ihK⟩ := ih
    constructor
    · intro n P h
      have hT : traverse_postorder d pr proc (fuel + 1) n =
          (if pr n then some (true, []) else
            match traverse_kids d pr proc fuel (first_child d n) with
            | none => none
            | some (false, tr) => some (false, tr)
            | some (true, tr) => some (proc n, tr ++ [n])) := rfl
      simp only [postorder_spec] at h
      by_cases hpr : pr n = true
      · rw [if_pos hpr] at h
        rcases Option.some.inj h with rfl
        rw [hT, if_pos hpr]
        exact ⟨true, [], rfl, ⟨[], rfl⟩, fun _ => rfl⟩
      · rw [if_neg hpr] at h
        rcases Option.map_eq_some'.1 h with ⟨K, hK, hP⟩
        rcases ihK (first_child d n) K hK with ⟨bk, trk, htk, ⟨rk, hrk⟩, himp⟩
        rw [hT, if_neg hpr, htk]
        cases bk with
        | false =>
          refine ⟨false, trk, rfl, ⟨rk ++ [n], ?_⟩, fun hb => by simp at hb⟩
          rw [← List.append_assoc, hrk, hP]
        | true =>
          have hkk : trk = K := himp rfl
          subst hkk
          refine ⟨proc n, trk ++ [n], rfl, ⟨[], by rw [List.append_nil, hP]⟩,
            fun _ => hP⟩
    · intro oc P h
      cases oc with
      | none =>
        simp only [postorder_spec_kids, Option.some.injEq] at h
        subst h
        exact ⟨true, [], rfl, ⟨[], rfl⟩, fun _ => rfl⟩
      | some k =>
        have hK2 : traverse_kids d pr proc (fuel + 1) (some k) =
            (match traverse_postorder d pr proc fuel k with
             | none => none
             | some (false, tr) => some (false, tr)
             | some (true, tr) =>
               match next_sibling d k with
               | Except.error _ => none
               | Except.ok nxt =>
                 match traverse_kids d pr proc fuel nxt with
                 | none => none
                 | some (b, tr2) => some (b, tr ++ tr2)) := rfl
        simp only [postorder_spec_kids] at h
        cases hsp : postorder_spec d pr fuel k with
        | none => simp [hsp] at h
        | some T =>
          cases hns : next_sibling d k with
          | error e => simp [hsp, hns] at h
          | ok nxt =>
            rw [hsp, hns] at h
            simp only at h
            rcases Option.map_eq_some'.1 h with ⟨L, hL, hP⟩
            rcases ihT k T hsp with ⟨b1, t1, ht1, ⟨r1, hr1⟩, himp1⟩
            rw [hK2, ht1]
            cases b1 with
            | false =>
              refine ⟨false, t1, rfl, ⟨r1 ++ L, ?_⟩, fun hb => by simp at hb⟩
              rw [← List.append_assoc, hr1, hP]
            | true =>
              have ht1T : t1 = T := himp1 rfl
              subst ht1T
              rcases ihK nxt L hL with ⟨b2, t2, ht2, ⟨r2, hr2⟩, himp2⟩
              refine ⟨b2, t1 ++ t2, ?_, ⟨r2, ?_⟩, fun hb => ?_⟩
              · show (match next_sibling d k with
                      | Except.error _ => none
                      | Except.ok nxt2 =>
                        match traverse_kids d pr proc fuel nxt2 with
                        | none => none
                        | some (b, tr2) => some (b, t1 ++ tr2)) =
                    some (b2, t1 ++ t2)
                rw [hns]
                show (match traverse_kids d pr proc fuel nxt with
                      | none => none
                      | some (b, tr2) => some (b, t1 ++ tr2)) =
                    some (b2, t1 ++ t2)
                rw [ht2]
              · rw [List.append_assoc, hr2, hP]
              · rw [himp2 hb, hP]

/-- The mutating variant of the adequacy lemma, with the traversal object's
state threaded through. -/
theorem traverse_mut_adequacy {σ : Type} (d : Doc) (pr : Nat → Bool)
    (proc : σ → Nat → σ × Bool) :
    ∀ fuel : Nat,
      (∀ n P (s : σ), postorder_spec d pr fuel n = some P →
        ∃ s2 b tr, traverse_postorder_mut d pr proc fuel n s = some (s2, b, tr) ∧
          (∃ rest, tr ++ rest = P) ∧ (b = true → tr = P)) ∧
      (∀ oc P (s : σ), postorder_spec_kids d pr fuel oc = some P →
        ∃ s2 b tr, traverse_kids_mut d pr proc fuel oc s = some (s2, b, tr) ∧
          (∃ rest, tr ++ rest = P) ∧ (b = true → tr = P)) := by
  intro fuel
  induction fuel with
  | zero =>
    constructor
    · intro n P s h
      simp [postorder_spec] at h
    · intro oc P s h
      cases oc with
      | none =>
        simp only [postorder_spec_kids, Option.some.injEq] at h
        subst h
        exact ⟨s, true, [], rfl, ⟨[], rfl⟩, fun _ => rfl⟩
      | some k =>
        simp [postorder_spec_kids] at h
  | succ fuel ih =>
    obtain ⟨ihT, ihK⟩ := ih
    constructor
    · intro n P s h
      have hT : traverse_postorder_mut d pr proc (fuel + 1) n s =
          (if pr n then some (s, true, []) else
            match traverse_kids_mut d pr proc fuel (first_child d n) s with
            | none => none
            | some (s2, false, tr) => some (s2, false, tr)
            | some (s2, true, tr) =>
              match proc s2 n with
              | (s3, b) => some (s3, b, tr ++ [n])) := rfl
      simp only [postorder_spec] at h
      by_cases hpr : pr n = true
      · rw [if_pos hpr] at h
        rcases Option.some.inj h with rfl
        rw [hT, if_pos hpr]
        exact ⟨s, true, [], rfl, ⟨[], rfl⟩, fun _ => rfl⟩
      · rw [if_neg hpr] at h
        rcases Option.map_eq_some'.1 h with ⟨K, hK, hP⟩
        rcases ihK (first_child d n) K s hK with ⟨s2, bk, trk, htk, ⟨rk, hrk⟩, himp⟩
        rw [hT, if_neg hpr, htk]
        cases bk with
        | false =>
          refine ⟨s2, false, trk, rfl, ⟨rk ++ [n], ?_⟩, fun hb => by simp at hb⟩
          rw [← List.append_assoc, hrk, hP]
        | true =>
          have hkk : trk = K := himp rfl
          subst hkk
          rcases hpn : proc s2 n with ⟨s3, b⟩
          refine ⟨s3, b, trk ++ [n], ?_, ⟨[], by rw [List.append_nil, hP]⟩,
            fun _ => hP⟩
          show (match proc s2 n with
                | (s4, b2) => some (s4, b2, trk ++ [n])) = some (s3, b, trk ++ [n])
          rw [hpn]
    · intro oc P s h
      cases oc with
      | none =>
        simp only [postorder_spec_kids, Option.some.injEq] at h
        subst h
        exact ⟨s, true, [], rfl, ⟨[], rfl⟩, fun _ => rfl⟩
      | some k =>
        have hK2 : traverse_kids_mut d pr proc (fuel + 1) (some k) s =
            (match traverse_postorder_mut d pr proc fuel k s with
             | none => none
             | some (s2, false, tr) => some (s2, false, tr)
             | some (s2, true, tr) =>
               match next_sibling d k with
               | Except.error _ => none
               | Except.ok nxt =>
                 match traverse_kids_mut d pr proc fuel nxt s2 with
                 | none => none
                 | some (s3, b, tr2) => some (s3, b, tr ++ tr2)) := rfl
        simp only [postorder_spec_kids] at h
        cases hsp : postorder_spec d pr fuel k with
        | none => simp [hsp] at h
        | some T =>
          cases hns : next_sibling d k with
          | error e => simp [hsp, hns] at h
          | ok nxt =>
            rw [hsp, hns] at h
            simp only at h
            rcases Option.map_eq_some'.1 h with ⟨L, hL, hP⟩
            rcases ihT k T s hsp with ⟨s2, b1, t1, ht1, ⟨r1, hr1⟩, himp1⟩
            rw [hK2, ht1]
            cases b1 with
            | false =>
              refine ⟨s2, false, t1, rfl, ⟨r1 ++ L, ?_⟩, fun hb => by simp at hb⟩
              rw [← List.append_assoc, hr1, hP]
            | true =>
              have ht1T : t1 = T := himp1 rfl
              subst ht1T
              rcases ihK nxt L s2 hL with ⟨s3, b2, t2, ht2, ⟨r2, hr2⟩, himp2⟩
              refine ⟨s3, b2, t1 ++ t2, ?_, ⟨r2, ?_⟩, fun hb => ?_⟩
              · show (match next_sibling d k with
                      | Except.error _ => none
                      | Except.ok nxt =>
                        match traverse_kids_mut d pr proc fuel nxt s2 with
                        | none => none
                        | some (s4, b, tr2) => some (s4, b, t1 ++ tr2)) =
                    some (s3, b2, t1 ++ t2)
                rw [hns]
                simp only []
                rw [ht2]
              · rw [List.append_assoc, hr2, hP]
              · rw [himp2 hb, hP]

/-- Claim C5: whenever the pruned children-before-parent postorder list of a
subtree is defined (`postorder_spec`, which by construction places every node
after the concatenation of its kids' lists, kids in children-iterator order),
both traversal variants complete, invoke `process` following exactly that
order from its start (the trace is an initial segment of the list, so a node
is processed only after all of its non-pruned descendants), produce the full
list whenever they report overall success, and the read-only variant with an
all-accepting process realizes the entire list. -/
theorem traverse_postorder_order (d : Doc) (pr : Nat → Bool) (fuel n : Nat)
    (P : List Nat) (h : postorder_spec d pr fuel n = some P) :
    (∀ proc : Nat → Bool, ∃ b tr,
      traverse_postorder d pr proc fuel n = some (b, tr) ∧
      (∃ rest, tr ++ rest = P) ∧ (b = true → tr = P)) ∧
    (∀ (σ : Type) (proc : σ → Nat → σ × Bool) (s : σ), ∃ s2 b tr,
      traverse_postorder_mut d pr proc fuel n s = some (s2, b, tr) ∧
      (∃ rest, tr ++ rest = P) ∧ (b = true → tr = P)) ∧
    (∃ tr, traverse_postorder d pr (fun _ => true) fuel n = some (true, tr) ∧
      tr = P) := by
  refine ⟨fun proc => (traverse_adequacy d pr proc fuel).1 n P h,
    fun σ proc s => (traverse_mut_adequacy d pr proc fuel).1 n P s h, ?_⟩
  rcases (traverse_adequacy d pr (fun _ => true) fuel).1 n P h with
    ⟨b, tr, ht, _, himp⟩
  cases b with
  | false =>
    rcases ((traverse_short_circuit_aux d pr (fun _ => true) fuel).1 n false tr ht).1
      rfl with ⟨pre, m, _, hm, _⟩
    simp at hm
  | true =>
    exact ⟨tr, ht, himp rfl⟩

/-- Claim C5 witness: on document F the pruned postorder list of the whole
tree is `[3, 1, 2, 0]` (text before its parent, both children before the
root), and the theorem instantiates to that run. -/
theorem traverse_postorder_order_witness :
    postorder_spec exDocF (fun _ => false) 10 0 = some [3, 1, 2, 0] ∧
    ((∀ proc : Nat → Bool, ∃ b tr,
        traverse_postorder exDocF (fun _ => false) proc 10 0 = some (b, tr) ∧
        (∃ rest, tr ++ rest = [3, 1, 2, 0]) ∧ (b = true → tr = [3, 1, 2, 0])) ∧
     (∀ (σ : Type) (proc : σ → Nat → σ × Bool) (s : σ), ∃ s2 b tr,
        traverse_postorder_mut exDocF (fun _ => false) proc 10 0 s = some (s2, b, tr) ∧
        (∃ rest, tr ++ rest = [3, 1, 2, 0]) ∧ (b = true → tr = [3, 1, 2, 0])) ∧
     (∃ tr, traverse_postorder exDocF (fun _ => false) (fun _ => true) 10 0 =
        some (true, tr) ∧ tr = [3, 1, 2, 0])) :=
  ⟨rfl, traverse_postorder_order exDocF (fun _ => false) 10 0 [3, 1, 2, 0] rfl⟩

/-- An element node always has element data. -/
theorem elementOf_of_is_element (d : Doc) (n : Nat) (h : is_element d n = true) :
    ∃ e, elementOf d n = some e := by
  unfold is_element at h
  unfold elementOf
  cases hnd : d.nodes n with
  | none => simp [hnd] at h
  | some nd =>
    cases hk : nd.kind with
    | ElementNode e => exact ⟨e, by simp [hnd, hk]⟩
    | DocumentNode => simp [hnd, hk] at h
    | TextNode => simp [hnd, hk] at h
    | OtherNode => simp [hnd, hk] at h

/-- A non-text node never hits the aborting text guard of `next_sibling`. -/
theorem next_sibling_ok_of_not_text (d : Doc) (n : Nat) (ht : is_text d n = false) :
    ∃ r, next_sibling d n = Except.ok r := by
  unfold next_sibling
  by_cases hg : (is_element d n && (elementTag d n == some "before")) = true
  · rw [if_pos hg]
    exact ⟨_, rfl⟩
  · rw [if_neg hg, ht]
    simp only [Bool.false_eq_true, if_false]
    exact ⟨_, rfl⟩

/-- A non-text node never hits the aborting text guard of `prev_sibling`. -/
theorem prev_sibling_ok_of_not_text (d : Doc) (n : Nat) (ht : is_text d n = false) :
    ∃ r, prev_sibling d n = Except.ok r := by
  unfold prev_sibling
  by_cases hg : (is_element d n && (elementTag d n == some "after")) = true
  · rw [if_pos hg]
    exact ⟨_, rfl⟩
  · rw [if_neg hg, ht]
    simp only [Bool.false_eq_true, if_false]
    exact ⟨_, rfl⟩

/-- A node with an element parent never aborts in `next_sibling`. -/
theorem next_sibling_ok_of_parent_element (d : Doc) (n p : Nat)
    (hp : parent_node d n = some p) (hpe : is_element d p = true) :
    ∃ r, next_sibling d n = Except.ok r := by
  by_cases ht : is_text d n = true
  · unfold next_sibling
    by_cases hg : (is_element d n && (elementTag d n == some "before")) = true
    · rw [if_pos hg]
      exact ⟨_, rfl⟩
    · rw [if_neg hg, ht]
      simp only [if_true]
      rw [hp]
      rcases elementOf_of_is_element d p hpe with ⟨e, he⟩
      by_cases hb : (e.tag_name == "before") = true
      · refine ⟨node_next_sibling d n, ?_⟩
        simp [he, hb]
      · refine ⟨next_sibling_rest d n, ?_⟩
        simp [he, hb]
  · exact next_sibling_ok_of_not_text d n (by simpa using ht)

/-- A node with an element parent never aborts in `prev_sibling`. -/
theorem prev_sibling_ok_of_parent_element (d : Doc) (n p : Nat)
    (hp : parent_node d n = some p) (hpe : is_element d p = true) :
    ∃ r, prev_sibling d n = Except.ok r := by
  by_cases ht : is_text d n = true
  · unfold prev_sibling
    by_cases hg : (is_element d n && (elementTag d n == some "after")) = true
    · rw [if_pos hg]
      exact ⟨_, rfl⟩
    · rw [if_neg hg, ht]
      simp only [if_true]
      rw [hp]
      rcases elementOf_of_is_element d p hpe with ⟨e, he⟩
      by_cases hb : (e.tag_name == "after") = true
      · refine ⟨node_prev_sibling d n, ?_⟩
        simp [he, hb]
      · refine ⟨prev_sibling_rest d n, ?_⟩
        simp [he, hb]
  · exact prev_sibling_ok_of_not_text d n (by simpa using ht)

/-- Claim C9 as stated is false on the wrapper: `necessary_pseudo_elements`
dereferences the node's side-table entry before anything else, so a node with
no side-table entry — a data-absence condition the claim says must produce an
explicit empty result — makes the operation abort instead, even when the node
also has no parent. -/
theorem necessary_pseudo_elements_abort_counterexample :
    borrow_layout_data exDocE 0 = none ∧
    parent_node exDocE 0 = none ∧
    necessary_pseudo_elements exDocE 0 = Except.error "get_ref on a none value" :=
  ⟨rfl, rfl, rfl⟩

/-- Claim C9, amended: `parent_node`, `first_child`, attribute lookup and
`link_target` handle every data-absence condition with an explicit no-value
result and never abort; `next_sibling`/`prev_sibling` likewise complete
normally on every non-text node and on every node whose parent exists and is
an element (they abort only on a text node with an absent or non-element
parent); and `necessary_pseudo_elements` yields the empty list for a
parentless node and a normal result when both side-table entries exist, but
aborts when the node's own side-table entry is absent. -/
theorem absence_handling (d : Doc) (n : Nat) :
    (node_parent d n = none → parent_node d n = none) ∧
    (node_first_child d n = none → first_child d n = none) ∧
    (is_text d n = false →
      (∃ r, next_sibling d n = Except.ok r) ∧
      ∃ r, prev_sibling d n = Except.ok r) ∧
    (∀ p, parent_node d n = some p → is_element d p = true →
      (∃ r, next_sibling d n = Except.ok r) ∧
      ∃ r, prev_sibling d n = Except.ok r) ∧
    (∀ ld, borrow_layout_data d n = some ld → parent_node d n = none →
      necessary_pseudo_elements d n = Except.ok []) ∧
    (∀ ld p pld, borrow_layout_data d n = some ld → parent_node d n = some p →
      borrow_layout_data d p = some pld →
      ∃ r, necessary_pseudo_elements d n = Except.ok r) ∧
    (borrow_layout_data d n = none →
      necessary_pseudo_elements d n = Except.error "get_ref on a none value") ∧
    (∀ (e : ElementData) (ns : Option String) (name : String),
      (∀ a ∈ e.attrs, ¬(a.1 = ns ∧ a.2.1 = name)) → get_attr e ns name = none) ∧
    (∀ e : ElementData, e.type_id = ElementTypeId.OtherElementTypeId →
      get_link e = none) := by
  refine ⟨fun h => h, ?_, ?_, ?_, ?_, ?_, ?_, ?_, ?_⟩
  · intro h
    unfold first_child
    rw [h]
  · intro ht
    exact ⟨next_sibling_ok_of_not_text d n ht, prev_sibling_ok_of_not_text d n ht⟩
  · intro p hp hpe
    exact ⟨next_sibling_ok_of_parent_element d n p hp hpe,
      prev_sibling_ok_of_parent_element d n p hp hpe⟩
  · intro ld hld hp
    simp [necessary_pseudo_elements, hld, hp]
  · intro ld p pld hld hp hpld
    refine ⟨(if pld.before_style.isSome && ld.before_node.isNone then
        [PseudoElement.Before] else []) ++
      (if pld.after_style.isSome && ld.after_node.isNone then
        [PseudoElement.After] else []), ?_⟩
    simp [necessary_pseudo_elements, hld, hp, hpld]
  · intro h
    simp [necessary_pseudo_elements, h]
  · intro e ns name hno
    unfold get_attr
    have hfind : e.attrs.find? (fun a => a.1 == ns && a.2.1 == name) = none := by
      rw [List.find?_eq_none]
      intro a ha
      simp only [Bool.and_eq_true, beq_iff_eq]
      exact hno a ha
    rw [hfind]
    rfl
  · intro e h
    simp [get_link, h]

/-- Claim C9 witness: the amended theorem instantiated on concrete documents —
absence results for the total queries on the parentless element of document E,
abort-free sibling moves for the text node of document A (whose parent is an
element), the empty diagnostic for the entry-bearing parentless node 0 of
document A, and absence for a missing attribute and a non-hyperlink element. -/
theorem absence_handling_witness :
    parent_node exDocE 0 = none ∧
    first_child exDocE 0 = none ∧
    ((∃ r, next_sibling exDocE 0 = Except.ok r) ∧
      ∃ r, prev_sibling exDocE 0 = Except.ok r) ∧
    ((∃ r, next_sibling exDocA 1 = Except.ok r) ∧
      ∃ r, prev_sibling exDocA 1 = Except.ok r) ∧
    necessary_pseudo_elements exDocA 0 = Except.ok [] ∧
    (∃ r, necessary_pseudo_elements exDocA 1 = Except.ok r) ∧
    necessary_pseudo_elements exDocE 0 = Except.error "get_ref on a none value" ∧
    get_attr { tag_name := "div" } none "href" = none ∧
    get_link { tag_name := "div" } = none :=
  ⟨(absence_handling exDocE 0).1 rfl,
   (absence_handling exDocE 0).2.1 rfl,
   (absence_handling exDocE 0).2.2.1 rfl,
   (absence_handling exDocA 1).2.2.2.1 0 rfl rfl,
   (absence_handling exDocA 0).2.2.2.2.1
     { after_style := some DisplayValue.inline,
       after_node := some { node := 2, display := DisplayValue.inline } } rfl rfl,
   (absence_handling exDocA 1).2.2.2.2.2.1
     { after_parent_node := some { node := 2, display := DisplayValue.inline },
       after_node := some { node := 2, display := DisplayValue.inline } }
     0
     { after_style := some DisplayValue.inline,
       after_node := some { node := 2, display := DisplayValue.inline } }
     rfl rfl rfl,
   (absence_handling exDocE 0).2.2.2.2.2.2.1 rfl,
   (absence_handling exDocE 0).2.2.2.2.2.2.2.1 { tag_name := "div" } none "href"
     (by intro a ha; simp at ha),
   (absence_handling exDocE 0).2.2.2.2.2.2.2.2 { tag_name := "div" } rfl⟩

end Servo
